import Mathlib

/-!
Verification development for the chirpy credential-and-session subsystem.

The definitions below are a shallow embedding of the Go source: the
`auth` package (header extraction, JWT issue and validate, bcrypt
wrappers), the sqlc refresh-token queries, and the login handler's
access-token lifetime selection.  Machine times are modelled as `Int`
unix seconds, UUID values as naturals below `2 ^ 128`, and the database
as an in-memory list of rows.  The HMAC-SHA256 signature of a JWT is
modelled symbolically (a tag records the key and the signed payload;
verification compares both), the standard perfect-MAC abstraction.
-/

namespace Chirpy

/-! ### Go string splitting

`strings.Split(s, " ")` splits on every occurrence of the single space
character: `""` yields `[""]`, `"a  b"` yields `["a", "", "b"]`,
`"Bearer "` yields `["Bearer", ""]`.  `strSplitAux` carries the current
field in reverse; `strSplit` runs it over the characters of `s`. -/

def strSplitAux (sep : Char) : List Char → List Char → List (List Char)
  | [], acc => [acc.reverse]
  | c :: cs, acc =>
      if c = sep then acc.reverse :: strSplitAux sep cs []
      else strSplitAux sep cs (c :: acc)

def strSplit (s : String) (sep : Char) : List String :=
  (strSplitAux sep s.data []).map List.asString

/-! ### Bearer extraction (auth.GetBearerToken and auth.GetAPIKey)

`http.Header.Get("Authorization")` returns the empty string when the
header is absent; we model the header state as `Option String` and
`headerGet` as that lookup.  Both extractors reject an empty value,
split the value on the space character, and demand exactly two parts
whose first equals the scheme (case-sensitively); on success the second
part is returned verbatim. -/

inductive AuthHeaderError
  | missingHeader
  | malformedHeader
deriving DecidableEq

def headerGet (authorization : Option String) : String :=
  authorization.getD ""

def extractScheme (scheme : String) (authorization : Option String) :
    Except AuthHeaderError String :=
  let authHeader := headerGet authorization
  if authHeader = "" then .error .missingHeader
  else
    match strSplit authHeader ' ' with
    | [p0, p1] => if p0 = scheme then .ok p1 else .error .malformedHeader
    | _ => .error .malformedHeader

def getBearerToken (authorization : Option String) : Except AuthHeaderError String :=
  extractScheme "Bearer" authorization

def getAPIKey (authorization : Option String) : Except AuthHeaderError String :=
  extractScheme "ApiKey" authorization

/-! ### UUID rendering and parsing (github.com/google/uuid)

A UUID is a 16-byte value, modelled as a natural number below
`2 ^ 128`.  `uuid.String` renders the canonical lowercase
8-4-4-4-12 hex form with dashes; `uuid.Parse` decodes it (accepting
either letter case for the hex digits; the further input forms Parse
accepts are never produced by `String` and play no role here). -/

def hexChar (d : Nat) : Char :=
  if d < 10 then Char.ofNat (48 + d) else Char.ofNat (97 + (d - 10))

def hexVal (c : Char) : Option Nat :=
  if 48 ≤ c.toNat ∧ c.toNat ≤ 57 then some (c.toNat - 48)
  else if 97 ≤ c.toNat ∧ c.toNat ≤ 102 then some (c.toNat - 97 + 10)
  else if 65 ≤ c.toNat ∧ c.toNat ≤ 70 then some (c.toNat - 65 + 10)
  else none

/-- Big-endian fixed-width hex rendering of `n` to `w` hex digits. -/
def toHex : Nat → Nat → List Char
  | 0, _ => []
  | w + 1, n => hexChar (n / 16 ^ w % 16) :: toHex w n

/-- Consume exactly `w` hex digits, accumulating their value into `acc`. -/
def parseHexAux : Nat → Nat → List Char → Option (Nat × List Char)
  | 0, acc, cs => some (acc, cs)
  | _ + 1, _, [] => none
  | w + 1, acc, c :: cs =>
      match hexVal c with
      | some d => parseHexAux w (acc * 16 + d) cs
      | none => none

def expectDash : List Char → Option (List Char)
  | '-' :: cs => some cs
  | _ => none

def uuidChars (u : Nat) : List Char :=
  toHex 8 (u / 2 ^ 96) ++
    ('-' :: (toHex 4 (u / 2 ^ 80 % 2 ^ 16) ++
      ('-' :: (toHex 4 (u / 2 ^ 64 % 2 ^ 16) ++
        ('-' :: (toHex 4 (u / 2 ^ 48 % 2 ^ 16) ++
          ('-' :: toHex 12 (u % 2 ^ 48))))))))

def uuidString (u : Nat) : String := String.mk (uuidChars u)

def uuidParse (s : String) : Option Nat := do
  let (f1, r1) ← parseHexAux 8 0 s.data
  let r1 ← expectDash r1
  let (f2, r2) ← parseHexAux 4 0 r1
  let r2 ← expectDash r2
  let (f3, r3) ← parseHexAux 4 0 r2
  let r3 ← expectDash r3
  let (f4, r4) ← parseHexAux 4 0 r3
  let r4 ← expectDash r4
  let (f5, r5) ← parseHexAux 12 0 r4
  if r5 = [] then
    some ((((f1 * 16 ^ 4 + f2) * 16 ^ 4 + f3) * 16 ^ 4 + f4) * 16 ^ 12 + f5)
  else none

/-! ### Access token codec (auth.MakeJWT and auth.ValidateJWT)

`MakeJWT` builds `jwt.RegisteredClaims` with issuer `"chirpy"`,
issued-at now, expires-at now plus the requested duration, and subject
`userID.String()`, then signs with HS256 under the secret.
`ValidateJWT` parses and verifies the token; the registered-claims
validator of github.com/golang-jwt/jwt/v5 (zero leeway, issued-at
verification off) accepts the expiry exactly when `now < expiresAt`;
finally the subject is parsed back into a UUID.  The relative order of
the signature check and the expiry check is not observable through any
property below (all failures collapse to an error). -/

structure RegisteredClaims where
  issuer : String
  subject : String
  issuedAt : Int
  expiresAt : Int
deriving DecidableEq

/-- A compact signed token: the claims payload plus the symbolic HMAC
tag over them (`sigKey` is the signing secret, `sigPayload` the signed
payload; a perfect MAC verifies exactly when both match). -/
structure SignedJWT where
  claims : RegisteredClaims
  sigKey : String
  sigPayload : RegisteredClaims
deriving DecidableEq

def signedString (tokenSecret : String) (claims : RegisteredClaims) : SignedJWT :=
  ⟨claims, tokenSecret, claims⟩

def hmacVerify (tok : SignedJWT) (tokenSecret : String) : Bool :=
  tok.sigKey == tokenSecret && tok.sigPayload == tok.claims

inductive JWTError
  | signatureInvalid
  | tokenExpired
  | malformedSubject
deriving DecidableEq

def makeJWT (userID : Nat) (tokenSecret : String) (expiresIn : Int) (now : Int) :
    SignedJWT :=
  signedString tokenSecret
    { issuer := "chirpy"
      subject := uuidString userID
      issuedAt := now
      expiresAt := now + expiresIn }

def validateJWT (tok : SignedJWT) (tokenSecret : String) (now : Int) :
    Except JWTError Nat :=
  if hmacVerify tok tokenSecret then
    if now < tok.claims.expiresAt then
      match uuidParse tok.claims.subject with
      | some userID => .ok userID
      | none => .error .malformedSubject
    else .error .tokenExpired
  else .error .signatureInvalid

/-! ### Credential hashing (auth.HashPassword)

Models golang.org/x/crypto/bcrypt `GenerateFromPassword` (the external
dependency the wrapper calls): passwords longer than 72 bytes are
rejected up front with `ErrPasswordTooLong`; a cost below MinCost 4 is
replaced by DefaultCost 10 and a cost above MaxCost 31 is rejected;
then the salt is drawn from the entropy source, which is the only
remaining failure.  `entropyOk` stands for the availability of
`rand.Reader`, `salt` for the bytes it returned; the digest itself is
opaque to every property here, so the hash value records its inputs
symbolically. -/

inductive BcryptError
  | passwordTooLong
  | invalidCost
  | entropyFailure
deriving DecidableEq

structure BcryptHash where
  cost : Nat
  salt : Nat
  key : String
deriving DecidableEq

def generateFromPassword (entropyOk : Bool) (salt : Nat) (password : String)
    (cost : Nat) : Except BcryptError BcryptHash :=
  if password.utf8ByteSize > 72 then .error .passwordTooLong
  else
    let cost := if cost < 4 then 10 else cost
    if cost > 31 then .error .invalidCost
    else if entropyOk then .ok ⟨cost, salt, password⟩
    else .error .entropyFailure

/-- auth.HashPassword: bcrypt at fixed cost 14. -/
def hashPassword (entropyOk : Bool) (salt : Nat) (password : String) :
    Except BcryptError BcryptHash :=
  generateFromPassword entropyOk salt password 14

/-! ### Refresh token store (sql/queries/refresh_tokens.sql)

The users and refresh_tokens tables as lists of rows.  The queries:
`CreateRefreshToken` inserts a row (revoked_at is not an insert column,
so it starts NULL); `GetUserFromRefreshToken` joins users on
`users.id = refresh_tokens.user_id` filtered by
`token = $1 AND expires_at > NOW() AND revoked_at IS NULL`, a `:one`
query that reports sql.ErrNoRows (modelled as `none`) whenever no row
passes the combined filter; `RevokeRefreshToken` updates
`revoked_at = NOW(), updated_at = NOW()` on rows whose token matches,
a `:exec` statement whose result carries no row count, so a zero-row
update is indistinguishable from a successful one. -/

structure UserRow where
  id : Nat
  createdAt : Int
  updatedAt : Int
  email : String
  hashedPassword : String
  isChirpyRed : Bool
deriving DecidableEq

structure RefreshTokenRow where
  token : String
  createdAt : Int
  updatedAt : Int
  userId : Nat
  expiresAt : Int
  revokedAt : Option Int
deriving DecidableEq

structure Store where
  users : List UserRow
  refreshTokens : List RefreshTokenRow
deriving DecidableEq

def createRefreshToken (st : Store) (token : String) (createdAt updatedAt : Int)
    (userId : Nat) (expiresAt : Int) : Store × RefreshTokenRow :=
  let row : RefreshTokenRow :=
    { token := token, createdAt := createdAt, updatedAt := updatedAt
      userId := userId, expiresAt := expiresAt, revokedAt := none }
  ({ st with refreshTokens := st.refreshTokens ++ [row] }, row)

/-- The WHERE filter of GetUserFromRefreshToken, applied in the single
lookup: exact token match, not yet expired, never revoked. -/
def matchesUsable (t : String) (now : Int) (r : RefreshTokenRow) : Bool :=
  r.token == t && decide (now < r.expiresAt) && r.revokedAt == none

def getUserFromRefreshToken (st : Store) (t : String) (now : Int) :
    Option UserRow :=
  match st.refreshTokens.find? (matchesUsable t now) with
  | some r => st.users.find? (fun u => u.id == r.userId)
  | none => none

def revokeRefreshToken (st : Store) (t : String) (now : Int) : Store :=
  { st with
    refreshTokens := st.refreshTokens.map (fun r =>
      if r.token == t then { r with revokedAt := some now, updatedAt := now }
      else r) }

/-- A database driver error; sqlc `:exec` surfaces nothing else, in
particular no not-found condition. -/
inductive DBError
  | infrastructure
deriving DecidableEq

/-- The result the generated RevokeRefreshToken method hands back to
its caller when the database itself does not fail: always success,
whether or not any row matched. -/
def revokeRefreshTokenExec (st : Store) (t : String) (now : Int) :
    Except DBError Store :=
  .ok (revokeRefreshToken st t now)

/-- revokeHandler: extract the bearer token, run the revoke statement,
answer 204 on success, 500 on a database error, 401 when the header is
missing or malformed.  Returns the HTTP status and the resulting store. -/
def revokeHandler (st : Store) (authorization : Option String) (now : Int) :
    Nat × Store :=
  match getBearerToken authorization with
  | .error _ => (401, st)
  | .ok tokenString =>
      match revokeRefreshTokenExec st tokenString now with
      | .ok st2 => (204, st2)
      | .error _ => (500, st)

/-! ### Login access-token lifetime (loginHandler)

The handler defaults to one hour and overwrites it only when the
request carries `expires_in_seconds` with a value of at most 3600;
larger values are silently ignored, never rejected. -/

def loginAccessTokenTTL (expiresInSeconds : Option Int) : Int :=
  match expiresInSeconds with
  | none => 3600
  | some v => if v ≤ 3600 then v else 3600

/-! ### Helper lemmas: the UUID string round trip -/

theorem pow16 : (2 : Nat) ^ 16 = 65536 := by norm_num

theorem pow48 : (2 : Nat) ^ 48 = 281474976710656 := by norm_num

theorem pow64 : (2 : Nat) ^ 64 = 18446744073709551616 := by norm_num

theorem pow80 : (2 : Nat) ^ 80 = 1208925819614629174706176 := by norm_num

theorem pow96 : (2 : Nat) ^ 96 = 79228162514264337593543950336 := by norm_num

theorem hexpow4 : (16 : Nat) ^ 4 = 65536 := by norm_num

theorem hexpow8 : (16 : Nat) ^ 8 = 4294967296 := by norm_num

theorem hexpow12 : (16 : Nat) ^ 12 = 281474976710656 := by norm_num

theorem hexVal_hexChar (d : Nat) (hd : d < 16) : hexVal (hexChar d) = some d := by
  interval_cases d <;> rfl

theorem parseHexAux_toHex (w : Nat) : ∀ (a n : Nat) (rest : List Char),
    parseHexAux w a (toHex w n ++ rest) = some (a * 16 ^ w + n % 16 ^ w, rest) := by
  induction w with
  | zero => intro a n rest; simp [toHex, parseHexAux, Nat.mod_one]
  | succ w ih =>
      intro a n rest
      have hlt : n / 16 ^ w % 16 < 16 := Nat.mod_lt _ (by norm_num)
      simp only [toHex, List.cons_append, parseHexAux, hexVal_hexChar _ hlt,
        List.append_eq]
      rw [ih]
      have key : (a * 16 + n / 16 ^ w % 16) * 16 ^ w + n % 16 ^ w
          = a * 16 ^ (w + 1) + n % 16 ^ (w + 1) := by
        rw [pow_succ, Nat.mod_mul]; ring
      rw [key]

theorem parseHexAux_toHex_nil (w a n : Nat) :
    parseHexAux w a (toHex w n) = some (a * 16 ^ w + n % 16 ^ w, []) := by
  have h := parseHexAux_toHex w a n []
  simpa using h

theorem uuidParse_uuidString (u : Nat) (hu : u < 2 ^ 128) :
    uuidParse (uuidString u) = some u := by
  have h1 : u / 2 ^ 96 < 16 ^ 8 := by omega
  have h2 : u / 2 ^ 80 % 2 ^ 16 < 16 ^ 4 := by omega
  have h3 : u / 2 ^ 64 % 2 ^ 16 < 16 ^ 4 := by omega
  have h4 : u / 2 ^ 48 % 2 ^ 16 < 16 ^ 4 := by omega
  have h5 : u % 2 ^ 48 < 16 ^ 12 := by omega
  simp only [uuidParse, uuidString, uuidChars, String.data, Option.bind_eq_bind,
    parseHexAux_toHex, parseHexAux_toHex_nil, Nat.zero_mul, Nat.zero_add,
    Nat.mod_eq_of_lt h1, Nat.mod_eq_of_lt h2, Nat.mod_eq_of_lt h3,
    Nat.mod_eq_of_lt h4, Nat.mod_eq_of_lt h5, Option.some_bind, expectDash,
    if_pos, Option.some.injEq]
  simp only [pow16, pow48, pow64, pow80, pow96, hexpow4, hexpow8, hexpow12] at *
  omega

/-! ### The claims about the access token codec -/

/-- C1: for every user identity U (a UUID), every secret S, and every
positive ttl, validating the token produced by MakeJWT(U, S, ttl) with
ValidateJWT under the same secret S returns exactly U, provided
validation is evaluated at a time before the token's expires_at
(issuance time + ttl). -/
theorem makeJWT_validateJWT_roundtrip (u : Nat) (hu : u < 2 ^ 128) (S : String)
    (ttl issuedAt now : Int) (hpos : 0 < ttl) (hfresh : now < issuedAt + ttl) :
    validateJWT (makeJWT u S ttl issuedAt) S now = .ok u := by
  simp only [validateJWT, makeJWT, signedString, hmacVerify, beq_self_eq_true,
    Bool.and_self, if_true, if_pos hfresh, uuidParse_uuidString u hu]

/-- Witness for C1 at a concrete input. -/
theorem makeJWT_validateJWT_roundtrip_witness :
    (3 : Nat) < 2 ^ 128 ∧ (0 : Int) < 3600 ∧ (100 : Int) < 0 + 3600 ∧
    validateJWT (makeJWT 3 "secret" 3600 0) "secret" 100 = .ok 3 :=
  ⟨by norm_num, by norm_num, by norm_num,
    makeJWT_validateJWT_roundtrip 3 (by norm_num) "secret" 3600 0 100
      (by norm_num) (by norm_num)⟩

/-- C3: validating a token produced by MakeJWT fails once the
evaluation time is at or after issuance time + ttl; in particular the
expiry boundary is inclusive, so validation already fails at the exact
instant now = expires_at. -/
theorem validateJWT_expired (u : Nat) (S : String) (ttl issuedAt now : Int)
    (hexp : issuedAt + ttl ≤ now) :
    validateJWT (makeJWT u S ttl issuedAt) S now = .error .tokenExpired := by
  simp only [validateJWT, makeJWT, signedString, hmacVerify, beq_self_eq_true,
    Bool.and_self, if_true, if_neg (not_lt.mpr hexp)]

/-- Witness for C3 exactly at the boundary now = issuedAt + ttl. -/
theorem validateJWT_expired_witness :
    (0 : Int) + 3600 ≤ 3600 ∧
    validateJWT (makeJWT 3 "secret" 3600 0) "secret" 3600 = .error .tokenExpired :=
  ⟨by norm_num, validateJWT_expired 3 "secret" 3600 0 3600 (by norm_num)⟩

/-- C7: a token produced by MakeJWT under secret S is rejected by
ValidateJWT under every different secret (signature isolation). -/
theorem validateJWT_wrong_secret (u : Nat) (S S2 : String)
    (ttl issuedAt now : Int) (hne : S2 ≠ S) :
    ∃ e, validateJWT (makeJWT u S ttl issuedAt) S2 now = .error e := by
  refine ⟨.signatureInvalid, ?_⟩
  have hsig : hmacVerify (makeJWT u S ttl issuedAt) S2 = false := by
    simp only [makeJWT, signedString, hmacVerify, Bool.and_eq_false_iff,
      beq_eq_false_iff_ne, ne_eq]
    exact Or.inl fun h => hne h.symm
  simp only [validateJWT, hsig, Bool.false_eq_true, if_false]

/-- Witness for C7 at a concrete pair of distinct secrets. -/
theorem validateJWT_wrong_secret_witness :
    "other" ≠ "secret" ∧
    ∃ e, validateJWT (makeJWT 3 "secret" 3600 0) "other" 100 = .error e :=
  ⟨by decide, validateJWT_wrong_secret 3 "secret" "other" 3600 0 100 (by decide)⟩

/-! ### The claims about credential hashing -/

/-- C5 counterexample: a 73-byte password is rejected by bcrypt even
though the entropy source is fine, so hashing does fail on input
content for over-long passwords. -/
theorem hashPassword_long_password_fails :
    hashPassword true 0 (String.mk (List.replicate 73 'a'))
      = .error .passwordTooLong := by
  rfl

/-- C5 amended: for every password of at most 72 UTF-8 bytes (the
empty string included), hashing succeeds at fixed bcrypt cost 14
whenever the underlying randomness source does not error; only longer
passwords are rejected on content. -/
theorem hashPassword_succeeds (password : String) (salt : Nat)
    (hlen : password.utf8ByteSize ≤ 72) :
    hashPassword true salt password = .ok ⟨14, salt, password⟩ := by
  simp only [hashPassword, generateFromPassword,
    if_neg (by omega : ¬ password.utf8ByteSize > 72)]
  rfl

/-- Witness for C5 amended at the empty password. -/
theorem hashPassword_succeeds_witness :
    "".utf8ByteSize ≤ 72 ∧ hashPassword true 0 "" = .ok ⟨14, 0, ""⟩ :=
  ⟨by decide, hashPassword_succeeds "" 0 (by decide)⟩

/-! ### The claim about the login access-token lifetime -/

/-- C8: on login the access token lives exactly one hour when the
request carries no expires_in_seconds or a value above 3600 (larger
requests are silently ignored, never honored and never rejected); a
requested shorter lifetime is used instead.  The last conjunct ties
the selected ttl to the expiry MakeJWT stamps into the token. -/
theorem loginTTL_spec :
    loginAccessTokenTTL none = 3600 ∧
    (∀ v : Int, 3600 < v → loginAccessTokenTTL (some v) = 3600) ∧
    (∀ v : Int, v < 3600 → loginAccessTokenTTL (some v) = v) ∧
    (∀ (e : Option Int) (u : Nat) (S : String) (now : Int),
      (makeJWT u S (loginAccessTokenTTL e) now).claims.expiresAt
        = now + loginAccessTokenTTL e) := by
  refine ⟨rfl, ?_, ?_, fun e u S now => rfl⟩
  · intro v hv
    simp [loginAccessTokenTTL, if_neg (not_le.mpr hv)]
  · intro v hv
    simp [loginAccessTokenTTL, if_pos (le_of_lt hv)]

/-- Witness for C8 at a longer-than-cap and a shorter request. -/
theorem loginTTL_spec_witness :
    (3600 : Int) < 7200 ∧ (60 : Int) < 3600 ∧
    loginAccessTokenTTL (some 7200) = 3600 ∧
    loginAccessTokenTTL (some 60) = 60 :=
  ⟨by norm_num, by norm_num, loginTTL_spec.2.1 7200 (by norm_num),
    loginTTL_spec.2.2.1 60 (by norm_num)⟩

/-! ### The implicit claim about a trailing space -/

/-- C10: an Authorization value that is exactly the scheme followed by
one trailing space splits into two parts, the second empty, so
GetBearerToken answers success with the empty token; the bare scheme
with no space is rejected as malformed. -/
theorem bearer_trailing_space :
    getBearerToken (some "Bearer ") = .ok "" ∧
    getBearerToken (some "Bearer") = .error .malformedHeader := by
  constructor <;> rfl

/-! ### The claims about revocation -/

/-- C4 counterexample: revoking a token no store row matches succeeds
(the UPDATE matches zero rows, sqlc `:exec` reports no error, the
handler answers 204), instead of returning a NotFound error. -/
theorem revoke_unknown_token_succeeds :
    revokeRefreshTokenExec ⟨[], []⟩ "unknown" 0 = .ok ⟨[], []⟩ ∧
    revokeHandler ⟨[], []⟩ (some "Bearer unknown") 0 = (204, ⟨[], []⟩) := by
  constructor <;> rfl

/-- C4 amended: absent an infrastructure failure the revoke operation
always succeeds; when no row matches the store is unchanged, and every
row whose token matches gets revoked_at and updated_at set to now. -/
theorem revoke_succeeds_and_updates (st : Store) (t : String) (now : Int) :
    revokeRefreshTokenExec st t now = .ok (revokeRefreshToken st t now) ∧
    ((∀ r ∈ st.refreshTokens, r.token ≠ t) → revokeRefreshToken st t now = st) ∧
    (∀ r ∈ st.refreshTokens, r.token = t →
      { r with revokedAt := some now, updatedAt := now }
        ∈ (revokeRefreshToken st t now).refreshTokens) := by
  refine ⟨rfl, ?_, ?_⟩
  · intro h
    cases st with
    | mk us rts =>
        have hmap : rts.map (fun r =>
            if r.token == t then { r with revokedAt := some now, updatedAt := now }
            else r) = rts := by
          conv_rhs => rw [← List.map_id rts]
          apply List.map_congr_left
          intro r hr
          simp [beq_eq_false_iff_ne.mpr (h r hr)]
        exact congrArg (Store.mk us) hmap
  · intro r hr hrt
    have hfr : ({ r with revokedAt := some now, updatedAt := now } : RefreshTokenRow)
        = (fun r =>
            if r.token == t then { r with revokedAt := some now, updatedAt := now }
            else r) r := by
      simp [hrt]
    rw [hfr]
    exact List.mem_map_of_mem _ hr

/-- Witness for C4 amended: the matching row of a one-row store comes
out with revoked_at and updated_at stamped. -/
theorem revoke_succeeds_and_updates_witness :
    ({ token := "tok", createdAt := 1, updatedAt := 9, userId := 7,
        expiresAt := 100, revokedAt := some 9 } : RefreshTokenRow)
      ∈ (revokeRefreshToken
          ⟨[], [{ token := "tok", createdAt := 1, updatedAt := 2, userId := 7,
                  expiresAt := 100, revokedAt := none }]⟩ "tok" 9).refreshTokens :=
  (revoke_succeeds_and_updates
      ⟨[], [{ token := "tok", createdAt := 1, updatedAt := 2, userId := 7,
              expiresAt := 100, revokedAt := none }]⟩ "tok" 9).2.2
    { token := "tok", createdAt := 1, updatedAt := 2, userId := 7,
      expiresAt := 100, revokedAt := none } (by simp) rfl

/-- C9: revocation is frame-preserving and one-way.  Revoking keeps
the row count, and every resulting row stems from a source row with
identical token, user_id, created_at and expires_at; a row changes at
all only when its token matched, in which case revoked_at and
updated_at are set to now, and a non-null revoked_at never returns to
null.  CreateRefreshToken only appends a fresh row with revoked_at
null, leaving all existing rows untouched. -/
theorem refreshToken_oneWay (st : Store) (t : String) (now : Int)
    (tok : String) (c uu : Int) (uid : Nat) (e : Int) :
    (revokeRefreshToken st t now).refreshTokens.length
      = st.refreshTokens.length ∧
    (∀ r2 ∈ (revokeRefreshToken st t now).refreshTokens,
      ∃ r ∈ st.refreshTokens,
        r2.token = r.token ∧ r2.userId = r.userId ∧
        r2.createdAt = r.createdAt ∧ r2.expiresAt = r.expiresAt ∧
        (r2 = r ∨ (r.token = t ∧ r2.revokedAt = some now ∧ r2.updatedAt = now)) ∧
        (r.revokedAt ≠ none → r2.revokedAt ≠ none)) ∧
    (createRefreshToken st tok c uu uid e).1.refreshTokens
      = st.refreshTokens ++
          [{ token := tok, createdAt := c, updatedAt := uu, userId := uid,
             expiresAt := e, revokedAt := none }] := by
  refine ⟨by simp [revokeRefreshToken], ?_, rfl⟩
  intro r2 hr2
  simp only [revokeRefreshToken, List.mem_map] at hr2
  obtain ⟨r, hr, heq⟩ := hr2
  refine ⟨r, hr, ?_⟩
  by_cases hb : r.token == t
  · rw [if_pos hb] at heq
    subst heq
    exact ⟨rfl, rfl, rfl, rfl, Or.inr ⟨beq_iff_eq.mp hb, rfl, rfl⟩,
      fun _ => by simp⟩
  · rw [if_neg hb] at heq
    subst heq
    exact ⟨rfl, rfl, rfl, rfl, Or.inl rfl, fun h => h⟩

/-- Witness for C9: the revoked row of a one-row store traces back to
its source row. -/
theorem refreshToken_oneWay_witness :
    ∃ r ∈ [({ token := "tok", createdAt := 1, updatedAt := 2, userId := 7,
              expiresAt := 100, revokedAt := some 5 } : RefreshTokenRow)],
      ({ token := "tok", createdAt := 1, updatedAt := 9, userId := 7,
          expiresAt := 100, revokedAt := some 9 } : RefreshTokenRow).token = r.token ∧
      ({ token := "tok", createdAt := 1, updatedAt := 9, userId := 7,
          expiresAt := 100, revokedAt := some 9 } : RefreshTokenRow).userId = r.userId ∧
      ({ token := "tok", createdAt := 1, updatedAt := 9, userId := 7,
          expiresAt := 100, revokedAt := some 9 } : RefreshTokenRow).createdAt = r.createdAt ∧
      ({ token := "tok", createdAt := 1, updatedAt := 9, userId := 7,
          expiresAt := 100, revokedAt := some 9 } : RefreshTokenRow).expiresAt = r.expiresAt ∧
      (({ token := "tok", createdAt := 1, updatedAt := 9, userId := 7,
          expiresAt := 100, revokedAt := some 9 } : RefreshTokenRow) = r ∨
        (r.token = "tok" ∧
         ({ token := "tok", createdAt := 1, updatedAt := 9, userId := 7,
             expiresAt := 100, revokedAt := some 9 } : RefreshTokenRow).revokedAt = some 9 ∧
         ({ token := "tok", createdAt := 1, updatedAt := 9, userId := 7,
             expiresAt := 100, revokedAt := some 9 } : RefreshTokenRow).updatedAt = 9)) ∧
      (r.revokedAt ≠ none →
        ({ token := "tok", createdAt := 1, updatedAt := 9, userId := 7,
            expiresAt := 100, revokedAt := some 9 } : RefreshTokenRow).revokedAt ≠ none) :=
  (refreshToken_oneWay
      ⟨[], [{ token := "tok", createdAt := 1, updatedAt := 2, userId := 7,
              expiresAt := 100, revokedAt := some 5 }]⟩ "tok" 9 "x" 0 0 0 0).2.1
    { token := "tok", createdAt := 1, updatedAt := 9, userId := 7,
      expiresAt := 100, revokedAt := some 9 } (by decide)

/-! ### Helper lemmas: first-match lookups with unique keys -/

theorem find?_eq_some_of_mem_unique {α : Type} (p : α → Bool) :
    ∀ (l : List α) (a : α), a ∈ l → p a = true →
      (∀ b ∈ l, p b = true → b = a) → l.find? p = some a := by
  intro l
  induction l with
  | nil => intro a ha _ _; cases ha
  | cons x xs ih =>
      intro a ha hpa huniq
      by_cases hx : p x = true
      · have hxa : x = a := huniq x (by simp) hx
        rw [List.find?_cons_of_pos _ hx, hxa]
      · rw [List.find?_cons_of_neg _ (by simpa using hx)]
        rcases List.mem_cons.mp ha with h | h
        · exact absurd (h ▸ hpa) hx
        · exact ih a h hpa (fun b hb hpb => huniq b (by simp [hb]) hpb)

theorem pairwise_key_eq {α β : Type} (key : α → β) (l : List α)
    (hp : l.Pairwise (fun a b => key a ≠ key b)) :
    ∀ a ∈ l, ∀ b ∈ l, key a = key b → a = b := by
  intro a ha b hb hk
  by_contra hne
  have hsym : Symmetric (fun a b : α => key a ≠ key b) :=
    fun x y h e => h e.symm
  exact (List.Pairwise.forall hsym hp ha hb hne) hk

theorem matchesUsable_iff (t : String) (now : Int) (r : RefreshTokenRow) :
    matchesUsable t now r = true ↔
      r.token = t ∧ now < r.expiresAt ∧ r.revokedAt = none := by
  simp [matchesUsable, Bool.and_eq_true, and_assoc]

/-- C2: under the table invariants (token values unique, user ids
unique, every token row owned by an existing user), the single-lookup
resolution succeeds with exactly the owning user when a row matches
the token string with revoked_at null and expires_at beyond now, and
yields the one NotFound result (ErrNoRows, modelled as `none`) in
every other case, whether the token is unknown, revoked or expired. -/
theorem getUserFromRefreshToken_spec (st : Store) (t : String) (now : Int)
    (htok : st.refreshTokens.Pairwise (fun a b => a.token ≠ b.token))
    (hid : st.users.Pairwise (fun a b => a.id ≠ b.id))
    (href : ∀ r ∈ st.refreshTokens, ∃ u ∈ st.users, u.id = r.userId) :
    (∀ urow : UserRow,
      getUserFromRefreshToken st t now = some urow ↔
        urow ∈ st.users ∧ ∃ r ∈ st.refreshTokens,
          r.token = t ∧ r.revokedAt = none ∧ now < r.expiresAt ∧
          urow.id = r.userId) ∧
    (getUserFromRefreshToken st t now = none ↔
      ¬ ∃ r ∈ st.refreshTokens,
          r.token = t ∧ r.revokedAt = none ∧ now < r.expiresAt) := by
  have hsome : ∀ urow : UserRow,
      getUserFromRefreshToken st t now = some urow ↔
        urow ∈ st.users ∧ ∃ r ∈ st.refreshTokens,
          r.token = t ∧ r.revokedAt = none ∧ now < r.expiresAt ∧
          urow.id = r.userId := by
    intro urow
    constructor
    · intro h
      unfold getUserFromRefreshToken at h
      cases hf : st.refreshTokens.find? (matchesUsable t now) with
      | none => rw [hf] at h; cases h
      | some r =>
          rw [hf] at h
          have hrmem := List.mem_of_find?_eq_some hf
          obtain ⟨hrt, hrexp, hrrev⟩ := (matchesUsable_iff t now r).mp
            (List.find?_some hf)
          have humem := List.mem_of_find?_eq_some h
          have huid : urow.id = r.userId := by
            have := List.find?_some h
            exact beq_iff_eq.mp this
          exact ⟨humem, r, hrmem, hrt, hrrev, hrexp, huid⟩
    · rintro ⟨humem, r, hrmem, hrt, hrrev, hrexp, huid⟩
      have hfind : st.refreshTokens.find? (matchesUsable t now) = some r := by
        apply find?_eq_some_of_mem_unique _ _ _ hrmem
          ((matchesUsable_iff t now r).mpr ⟨hrt, hrexp, hrrev⟩)
        intro b hb hpb
        have hbt : b.token = t := ((matchesUsable_iff t now b).mp hpb).1
        apply pairwise_key_eq (fun r => r.token) _ htok b hb r hrmem
        show b.token = r.token
        rw [hbt, hrt]
      have hufind : st.users.find? (fun u => u.id == r.userId) = some urow := by
        apply find?_eq_some_of_mem_unique _ _ _ humem (by simp [huid])
        intro b hb hpb
        apply pairwise_key_eq (fun u => u.id) _ hid b hb urow humem
        show b.id = urow.id
        rw [beq_iff_eq.mp hpb, huid]
      simp only [getUserFromRefreshToken, hfind]
      exact hufind
  refine ⟨hsome, ?_, ?_⟩
  · intro h
    rintro ⟨r, hrmem, hrt, hrrev, hrexp⟩
    obtain ⟨uu, huumem, huuid⟩ := href r hrmem
    have := (hsome uu).mpr ⟨huumem, r, hrmem, hrt, hrrev, hrexp, huuid⟩
    rw [h] at this
    cases this
  · intro hne
    unfold getUserFromRefreshToken
    cases hf : st.refreshTokens.find? (matchesUsable t now) with
    | none => rfl
    | some r =>
        exfalso
        apply hne
        obtain ⟨hrt, hrexp, hrrev⟩ := (matchesUsable_iff t now r).mp
          (List.find?_some hf)
        exact ⟨r, List.mem_of_find?_eq_some hf, hrt, hrrev, hrexp⟩

/-- Witness for C2: a one-user, one-token store resolves the token to
its owner while unexpired and unrevoked. -/
theorem getUserFromRefreshToken_spec_witness :
    getUserFromRefreshToken
        ⟨[{ id := 7, createdAt := 0, updatedAt := 0, email := "a@b.com",
            hashedPassword := "h", isChirpyRed := false }],
          [{ token := "tok", createdAt := 0, updatedAt := 0, userId := 7,
             expiresAt := 100, revokedAt := none }]⟩ "tok" 5
      = some { id := 7, createdAt := 0, updatedAt := 0, email := "a@b.com",
               hashedPassword := "h", isChirpyRed := false } :=
  ((getUserFromRefreshToken_spec
      ⟨[{ id := 7, createdAt := 0, updatedAt := 0, email := "a@b.com",
          hashedPassword := "h", isChirpyRed := false }],
        [{ token := "tok", createdAt := 0, updatedAt := 0, userId := 7,
           expiresAt := 100, revokedAt := none }]⟩ "tok" 5
      (by decide) (by decide) (by decide)).1
    { id := 7, createdAt := 0, updatedAt := 0, email := "a@b.com",
      hashedPassword := "h", isChirpyRed := false }).mpr
    ⟨by decide,
      { token := "tok", createdAt := 0, updatedAt := 0, userId := 7,
        expiresAt := 100, revokedAt := none }, by decide, rfl, rfl,
      by decide, rfl⟩

/-! ### Helper lemma and claim for bearer extraction -/

theorem extractScheme_spec (scheme : String) (authorization : Option String) :
    (extractScheme scheme authorization = .error .missingHeader ↔
      headerGet authorization = "") ∧
    (∀ tok, extractScheme scheme authorization = .ok tok ↔
      headerGet authorization ≠ "" ∧
      strSplit (headerGet authorization) ' ' = [scheme, tok]) ∧
    (extractScheme scheme authorization = .error .malformedHeader ↔
      headerGet authorization ≠ "" ∧
      ∀ tok, strSplit (headerGet authorization) ' ' ≠ [scheme, tok]) := by
  by_cases hemp : headerGet authorization = ""
  · unfold extractScheme
    rw [if_pos hemp]
    exact ⟨by simp [hemp], fun tok => by simp [hemp], by simp [hemp]⟩
  · unfold extractScheme
    rw [if_neg hemp]
    rcases hsplit : strSplit (headerGet authorization) ' '
      with _ | ⟨p0, _ | ⟨p1, _ | ⟨p2, tail3⟩⟩⟩
    · exact ⟨by simp [hemp, hsplit], fun tok => by simp [hemp, hsplit],
        by simp [hemp, hsplit]⟩
    · exact ⟨by simp [hemp, hsplit], fun tok => by simp [hemp, hsplit],
        by simp [hemp, hsplit]⟩
    · by_cases hp0 : p0 = scheme
      · exact ⟨by simp [hemp, hsplit, hp0], fun tok => by simp [hemp, hsplit, hp0],
          by simp [hemp, hsplit, hp0]⟩
      · exact ⟨by simp [hemp, hsplit, hp0], fun tok => by simp [hemp, hsplit, hp0],
          by simp [hemp, hsplit, hp0]⟩
    · exact ⟨by simp [hemp, hsplit], fun tok => by simp [hemp, hsplit],
        by simp [hemp, hsplit]⟩

/-- C6: for each extractor (GetBearerToken with scheme Bearer, GetAPIKey
with scheme ApiKey) extraction fails with the missing-header error
exactly when the Authorization header is absent or empty, fails with
the malformed-header error exactly when the non-empty value does not
split on the space character into exactly two parts with the first
equal, case-sensitively, to the scheme, and otherwise succeeds with the
second part returned verbatim. -/
theorem header_extraction_spec (authorization : Option String) :
    ((getBearerToken authorization = .error .missingHeader ↔
        headerGet authorization = "") ∧
      (∀ tok, getBearerToken authorization = .ok tok ↔
        headerGet authorization ≠ "" ∧
        strSplit (headerGet authorization) ' ' = ["Bearer", tok]) ∧
      (getBearerToken authorization = .error .malformedHeader ↔
        headerGet authorization ≠ "" ∧
        ∀ tok, strSplit (headerGet authorization) ' ' ≠ ["Bearer", tok])) ∧
    ((getAPIKey authorization = .error .missingHeader ↔
        headerGet authorization = "") ∧
      (∀ tok, getAPIKey authorization = .ok tok ↔
        headerGet authorization ≠ "" ∧
        strSplit (headerGet authorization) ' ' = ["ApiKey", tok]) ∧
      (getAPIKey authorization = .error .malformedHeader ↔
        headerGet authorization ≠ "" ∧
        ∀ tok, strSplit (headerGet authorization) ' ' ≠ ["ApiKey", tok])) :=
  ⟨extractScheme_spec "Bearer" authorization,
    extractScheme_spec "ApiKey" authorization⟩

/-- Witness for C6: concrete successful extractions under each scheme. -/
theorem header_extraction_spec_witness :
    getBearerToken (some "Bearer abc") = .ok "abc" ∧
    getAPIKey (some "ApiKey k1") = .ok "k1" :=
  ⟨((header_extraction_spec (some "Bearer abc")).1.2.1 "abc").mpr
      ⟨by decide, by decide⟩,
    ((header_extraction_spec (some "ApiKey k1")).2.2.1 "k1").mpr
      ⟨by decide, by decide⟩⟩

end Chirpy
